import Mathlib

/-!
Verification of the document-ingestion and schedule-extraction pipeline of the
Contract_Sync repository (FastAPI + parsers + Gemini orchestration).

Shallow embedding conventions:
* Python strings are Lean `String`s; `len` is `String.length` (code points in
  both languages).  Python `str.strip()` is modelled by `pyStrip`, whose
  whitespace set is the ASCII whitespace characters (the inputs of interest
  are ASCII/Hangul text, where the two notions agree).
* Byte buffers are `List Nat` (each entry one byte).
* Python float comparisons `len(text)/pages < 50` and `ratio < 0.3` are
  modelled exactly over the rationals (`len < 50 * pages`,
  `10 * meaningful < 3 * len`).
* Fallible code returns `Except`; library calls that can raise
  (`zipfile.ZipFile`, `olefile`, pixmap rendering) appear as `Except`/`Option`
  valued inputs of the model.
-/

/-- ASCII whitespace predicate modelling Python's `str.strip()` / regex `\s`
character class (restricted to the ASCII range). -/
def pyIsSpace (c : Char) : Bool :=
  c = ' ' || c = '\t' || c = '\n' || c = '\r' || c = '\x0b' || c = '\x0c'

/-- Python `str.strip()` on a character list: drop whitespace from both ends. -/
def pyStripList (l : List Char) : List Char :=
  ((l.dropWhile pyIsSpace).reverse.dropWhile pyIsSpace).reverse

/-- Python `str.strip()`. -/
def pyStrip (s : String) : String :=
  String.mk (pyStripList s.data)

/-- Python `sep.join(parts)`. -/
def joinWith (sep : String) : List String → String
  | [] => ""
  | [x] => x
  | x :: y :: xs => x ++ sep ++ joinWith sep (y :: xs)

/-- Python `s.startswith(p)` (also used for `bytes.startswith` via `.data`). -/
def pyStartsWith (s p : String) : Bool := p.data.isPrefixOf s.data

/-- Python `s.endswith(p)`. -/
def pyEndsWith (s p : String) : Bool := p.data.isSuffixOf s.data

/-- Stable insertion used by `sortBy` (model of Python's stable `sorted`). -/
def insertBy (le : α → α → Bool) (x : α) : List α → List α
  | [] => [x]
  | y :: ys => if le y x then y :: insertBy le x ys else x :: y :: ys

/-- Stable sort modelling Python's `sorted`. -/
def sortBy (le : α → α → Bool) (l : List α) : List α :=
  l.foldl (fun acc x => insertBy le x acc) []

/-- `app/parsers/base.py` `ParseResult`: parser output, text plus zero or
more page image buffers. -/
structure ParseResult where
  text : String
  images : List (List Nat)
deriving Repr

/-- `ParseResult.has_text`: `bool(self.text and self.text.strip())`. -/
def ParseResult.hasText (pr : ParseResult) : Bool :=
  pr.text ≠ "" && pyStrip pr.text ≠ ""

/-- `ParseResult.has_images`: `bool(self.images)`. -/
def ParseResult.hasImages (pr : ParseResult) : Bool :=
  !pr.images.isEmpty

/-! ## Legacy-HWP body-text decoder (`hwp_parser.py`, `_extract_text_from_bodytext`) -/

/-- One 16-bit code unit of the legacy-HWP body stream, mapped to the characters
the decoder emits for it: the character itself for printable/Hangul code units,
newline for CR/LF, tab for TAB, nothing otherwise. -/
def emitUnit (c : Nat) : List Char :=
  if (0x20 ≤ c ∧ c < 0xD800) ∨ (0xAC00 ≤ c ∧ c ≤ 0xD7A3) then [Char.ofNat c]
  else if c = 0x0D ∨ c = 0x0A then ['\n']
  else if c = 0x09 then ['\t']
  else []

/-- `HWPParser._extract_text_from_bodytext`: walk the byte list two bytes at a
time (`struct.unpack("<H", data[i:i+2])`, `i += 2`, loop guard
`i < len(data) - 1`), decoding each pair as a little-endian 16-bit code unit;
a trailing odd byte is never read. -/
def extractTextFromBodytext : List Nat → List Char
  | b0 :: b1 :: rest => emitUnit (b0 + 256 * b1) ++ extractTextFromBodytext rest
  | _ => []

/-! ## DOCX parser (`docx_parser.py`) -/

/-- The merged-cell de-duplication loop of `DocxParser._extract_table`:
`prev = None`, append a cell only when it differs from `prev`, updating `prev`
on append. -/
def collapseRowAux : Option String → List String → List String
  | _, [] => []
  | prev, c :: cs =>
    if some c ≠ prev then c :: collapseRowAux (some c) cs
    else collapseRowAux prev cs

/-- Collapse runs of identical consecutive cells (initial `prev` is `None`). -/
def collapseRow (cells : List String) : List String :=
  collapseRowAux none cells

/-- `DocxParser._extract_table`: strip each cell, collapse consecutive
duplicates, join cells with `" | "` and rows with newlines.  A table is a list
of rows, each row a list of cell texts. -/
def extractTable (table : List (List String)) : String :=
  joinWith "\n"
    (table.map fun row => joinWith " | " (collapseRow (row.map pyStrip)))

/-- `DocxParser.parse` on an opened document: paragraphs with non-empty
stripped text, then each table rendering that has non-empty stripped text
prefixed with `"\n[표]\n"`, all joined with `"\n\n"`; never any images. -/
def docxParse (paragraphs : List String) (tables : List (List (List String))) :
    ParseResult :=
  ParseResult.mk
    (joinWith "\n\n"
      ((paragraphs.filter fun p => pyStrip p ≠ "") ++
        (tables.filterMap fun t =>
          if pyStrip (extractTable t) ≠ "" then some ("\n[표]\n" ++ extractTable t)
          else none)))
    []

/-! ## PDF parser (`pdf_parser.py`) -/

/-- `PDFParser.TEXT_THRESHOLD`. -/
def textThreshold : Nat := 100

/-- `PDFParser.TEXT_QUALITY_THRESHOLD` (average characters per page). -/
def textQualityThreshold : Nat := 50

/-- `PDFParser.MAX_IMAGE_PAGES`. -/
def maxImagePages : Nat := 20

/-- `PDFParser.MAX_IMAGE_BYTES_PER_PAGE` (4 MB). -/
def maxImageBytesPerPage : Nat := 4 * 1024 * 1024

/-- `PDFParser.MAX_TOTAL_IMAGE_BYTES` (18 MB). -/
def maxTotalImageBytes : Nat := 18 * 1024 * 1024

/-- A page of an opened PDF document.  `text` is the output of
`PDFParser._extract_text_from_page` for the page (text layer, image-metadata
artifacts already filtered, stripped).  `render i` is the PNG buffer produced
by `page.get_pixmap` at scale `2.0`/`1.5`/`1.0` for `i = 0/1/2`, `none` when
the pixmap call raises. -/
structure PdfPage where
  text : String
  render : Fin 3 → Option (List Nat)

/-- Characters counted by `re.findall(r'[가-힣a-zA-Z0-9]', text)`. -/
def isMeaningfulChar (c : Char) : Bool :=
  ('a' ≤ c && c ≤ 'z') || ('A' ≤ c && c ≤ 'Z') || ('0' ≤ c && c ≤ '9') ||
    ('가' ≤ c && c ≤ '힣')

/-- Number of alphanumeric/Hangul characters of a string. -/
def meaningfulCount (s : String) : Nat :=
  (s.data.filter isMeaningfulChar).length

/-- `PDFParser._is_likely_scanned`: zero pages, any empty page, average
characters per page below the quality threshold, or meaningful-character
ratio below 0.3 (the two float comparisons are the exact rational ones). -/
def isLikelyScanned (text : String) (pageCount emptyPageCount : Nat) : Bool :=
  if pageCount = 0 then true
  else if 0 < emptyPageCount then true
  else if text.length < textQualityThreshold * pageCount then true
  else if 0 < text.length ∧ 10 * meaningfulCount text < 3 * text.length then true
  else false

/-- Marker characters of the page-header regex character class `[-─━]`. -/
def isMarkerDash (c : Char) : Bool := c = '-' || c = '─' || c = '━'

/-- Leftmost-match attempt of the regex `[-─━]+\s*페이지\s*\d*\s*[-─━]*` at the
head of the character list; on success, returns the remainder after the
(greedy) match.  All character classes involved are pairwise disjoint, so the
greedy match is the deterministic maximal munch. -/
def matchMarker (l : List Char) : Option (List Char) :=
  if (l.takeWhile isMarkerDash).isEmpty then none
  else
    match (l.dropWhile isMarkerDash).dropWhile pyIsSpace with
    | '페' :: '이' :: '지' :: r3 =>
      some ((((r3.dropWhile pyIsSpace).dropWhile
        Char.isDigit).dropWhile pyIsSpace).dropWhile isMarkerDash)
    | _ => none

/-- Fuel-driven scan of `re.sub(r'[-─━]+\s*페이지\s*\d*\s*[-─━]*', '', s)`:
at each position, delete a match if one starts there, otherwise keep the
character and advance.  Every match consumes at least one character, so fuel
`l.length` (as used by `stripPageMarkers`) never runs out. -/
def stripGo : Nat → List Char → List Char
  | _, [] => []
  | 0, l => l
  | fuel + 1, c :: rest =>
    match matchMarker (c :: rest) with
    | some r => stripGo fuel r
    | none => c :: stripGo fuel rest

/-- The `re.sub` call of `PDFParser.parse` removing page header/footer
decorations. -/
def stripPageMarkers (l : List Char) : List Char := stripGo l.length l

/-- The page-boundary marker `f"--- 페이지 {page_num + 1} ---\n"`. -/
def pageMark (pageNum : Nat) : String :=
  "--- 페이지 " ++ toString (pageNum + 1) ++ " ---\n"

/-- The `text_pages` list of `PDFParser.parse`: pages with non-empty stripped
text, tagged with their page-boundary marker, in page order. -/
def pdfMarkedTexts (pages : List PdfPage) : List String :=
  pages.enum.filterMap fun ip =>
    if pyStrip ip.2.text ≠ "" then some (pageMark ip.1 ++ ip.2.text) else none

/-- `total_text = "\n\n".join(text_pages)`. -/
def pdfTotalText (pages : List PdfPage) : String :=
  joinWith "\n\n" (pdfMarkedTexts pages)

/-- `clean_text`: page markers removed, then stripped. -/
def pdfCleanText (pages : List PdfPage) : String :=
  pyStrip (String.mk (stripPageMarkers (pdfTotalText pages).data))

/-- `empty_page_count`: pages whose extracted text strips to empty. -/
def pdfEmptyPageCount (pages : List PdfPage) : Nat :=
  (pages.filter fun p => pyStrip p.text = "").length

/-- `PDFParser._render_page_optimized`: render at scale 2.0; if the PNG exceeds
the 4 MB per-page ceiling, re-render at 1.5 then 1.0; if still oversized at the
smallest scale, return the oversized buffer anyway.  `none` models the pixmap
call raising, which the caller's `try` turns into skipping the page. -/
def renderPageOptimized (p : PdfPage) : Option (List Nat) :=
  match p.render 0 with
  | none => none
  | some b0 =>
    if b0.length ≤ maxImageBytesPerPage then some b0
    else
      match p.render 1 with
      | none => none
      | some b1 =>
        if b1.length ≤ maxImageBytesPerPage then some b1
        else
          match p.render 2 with
          | none => none
          | some b2 => some b2

/-- The page loop of `PDFParser._render_pages_as_images`: accumulate rendered
pages in order, skip pages whose rendering raised, and `break` (returning what
was collected so far) at the first page whose inclusion pushes the running
total over the 18 MB ceiling. -/
def renderLoop : List PdfPage → Nat → List (List Nat)
  | [], _ => []
  | p :: ps, total =>
    match renderPageOptimized p with
    | none => renderLoop ps total
    | some b =>
      if maxTotalImageBytes < total + b.length then []
      else b :: renderLoop ps (total + b.length)

/-- `PDFParser._render_pages_as_images`: at most `MAX_IMAGE_PAGES` pages, in
index order, under the cumulative budget. -/
def renderPagesAsImages (pages : List PdfPage) : List (List Nat) :=
  renderLoop (pages.take maxImagePages) 0

/-- Total byte size of a list of image buffers. -/
def sumBytes (images : List (List Nat)) : Nat :=
  (images.map List.length).sum

/-- `PDFParser.parse` after the page scan: return text-only when the cleaned
text reaches `TEXT_THRESHOLD` and the document is not likely scanned,
otherwise render page images (keeping the partial text when any page had
text). -/
def pdfParse (pages : List PdfPage) : ParseResult :=
  if textThreshold ≤ (pdfCleanText pages).length ∧
      isLikelyScanned (pdfCleanText pages) pages.length (pdfEmptyPageCount pages) = false then
    ParseResult.mk (pdfTotalText pages) []
  else
    ParseResult.mk (if pdfMarkedTexts pages = [] then "" else pdfTotalText pages)
      (renderPagesAsImages pages)

/-! ## HWP/HWPX parser (`hwp_parser.py`) -/

/-- An XML element as seen by `xml.etree.ElementTree`: its `text` (before the
first child), children, and `tail` (text after the element). -/
inductive Xml where
  | elem (text : Option String) (children : List Xml) (tail : Option String)

/-- The stripped, non-empty text contributions collected for one visited
element (`elem.text` then `elem.tail`, each appended when its strip is
truthy). -/
def nodeParts (t tl : Option String) : List String :=
  (match t with
   | some s => if pyStrip s ≠ "" then [pyStrip s] else []
   | none => []) ++
  (match tl with
   | some s => if pyStrip s ≠ "" then [pyStrip s] else []
   | none => [])

mutual
/-- Text parts collected by `for elem in root.iter(): ...` — the iteration is
pre-order, and for each visited element its `text` and `tail` are appended. -/
def xmlParts : Xml → List String
  | .elem t cs tl => nodeParts t tl ++ xmlPartsList cs
/-- Parts of a list of sibling elements, in order. -/
def xmlPartsList : List Xml → List String
  | [] => []
  | x :: xs => xmlParts x ++ xmlPartsList xs
end

/-- `HWPParser._extract_text_from_xml` after namespace removal: `none` models
`ET.fromstring` raising `ParseError` (caught, yielding the empty string);
otherwise the space-joined collected parts. -/
def extractTextFromXml : Option Xml → String
  | none => ""
  | some root => joinWith " " (xmlParts root)

/-- Section-member name test of `_parse_hwpx`:
`name.startswith("Contents/section") and name.endswith(".xml")`. -/
def isSectionName (n : String) : Bool :=
  pyStartsWith n "Contents/section" && pyEndsWith n ".xml"

/-- The member loop of `_parse_hwpx` over a (name-sorted) member list.  Each
member carries the outcome of `zf.open(name)` / `f.read().decode("utf-8")`:
`.error` models that read/decode raising (bad CRC, invalid UTF-8 — there is
no try/except around it, so it aborts the whole parse at the first failing
section member); `.ok x` the decoded content, with `x = none` when
`ET.fromstring` raises `ParseError` (caught, contributing nothing) and
`x = some _` the parsed section document.  Non-section members are never
opened.  A section's text is appended when its strip is non-empty. -/
def hwpxSectionsGo :
    List (String × Except String (Option Xml)) → Except String (List String)
  | [] => .ok []
  | e :: rest =>
    if isSectionName e.1 then
      match e.2 with
      | .error err => .error err
      | .ok x =>
        match hwpxSectionsGo rest with
        | .error err => .error err
        | .ok ts =>
          .ok (if pyStrip (extractTextFromXml x) ≠ "" then
            extractTextFromXml x :: ts else ts)
    else hwpxSectionsGo rest

/-- `HWPParser._parse_hwpx` over the archive member list: members are visited
in `sorted(zf.namelist())` order; section texts are joined with `"\n\n"`; a
failing member read/decode propagates as the (unwrapped) library error. -/
def hwpxText (entries : List (String × Except String (Option Xml))) :
    Except String String :=
  match hwpxSectionsGo (sortBy (fun a b => decide (a.1 ≤ b.1)) entries) with
  | .error e => .error e
  | .ok ts => .ok (joinWith "\n\n" ts)

/-- An `.hwp`/`.hwpx` upload as `HWPParser.parse` observes it: its leading
bytes, the result of opening it with `zipfile` (`error` models `BadZipFile`
and kin; `ok` the member list, each member's content itself fallible, see
`hwpxSectionsGo`), and the result of the OLE branch `_parse_hwp_ole`
(`error` models any exception raised there). -/
structure HwpFileModel where
  firstBytes : List Nat
  zip : Except String (List (String × Except String (Option Xml)))
  oleText : Except String String

/-- The zip magic signature `PK\x03\x04`. -/
def zipMagic : List Nat := [0x50, 0x4B, 0x03, 0x04]

/-- `HWPParser.parse`: when the first four bytes are the zip signature, take
the HWPX branch (whose library errors — archive open or member read/decode —
propagate unwrapped); otherwise the OLE branch, whose exceptions are wrapped
into the corrupt-document `ValueError` `"HWP 파싱 실패: ..."`. -/
def hwpParse (f : HwpFileModel) : Except String ParseResult :=
  if f.firstBytes.take 4 = zipMagic then
    match f.zip with
    | .error e => .error e
    | .ok entries =>
      match hwpxText entries with
      | .error e => .error e
      | .ok t => .ok (ParseResult.mk t [])
  else
    match f.oleText with
    | .ok t => .ok (ParseResult.mk t [])
    | .error e => .error ("HWP 파싱 실패: " ++ e)

/-! ## Output schema (`schemas/schedule.py`) and Gemini reconciliation
(`gemini_service.py`)

Pydantic validation is modelled in its (default) lax mode: optional string
fields accept JSON null or string; required string fields accept only a
string; integers accept a JSON number or a numeric string; lists must be
lists.  Numeric JSON values are modelled as integers. -/

/-- A parsed JSON value (`json.loads` output). -/
inductive Json where
  | null
  | bool (b : Bool)
  | num (n : Int)
  | str (s : String)
  | arr (elems : List Json)
  | obj (fields : List (String × Json))

/-- The `ScheduleType` enum of `schemas/schedule.py` (declared there, but not
referenced by any field type). -/
inductive ScheduleType where
  | start | completion | design | development | test | delivery
  | interimReport | finalReport | inspection | handover | other
deriving DecidableEq

/-- The string value of each `ScheduleType` member. -/
def ScheduleType.val : ScheduleType → String
  | .start => "착수"
  | .completion => "완료"
  | .design => "설계"
  | .development => "개발"
  | .test => "테스트"
  | .delivery => "납품"
  | .interimReport => "중간보고"
  | .finalReport => "최종보고"
  | .inspection => "검수"
  | .handover => "인도"
  | .other => "기타"

/-- `ScheduleItem`: `phase` and `schedule_type` are required plain strings;
the date/description/deliverables fields are optional. -/
structure ScheduleItem where
  phase : String
  schedule_type : String
  start_date : Option String
  end_date : Option String
  description : Option String
  deliverables : Option (List String)
deriving Repr, DecidableEq

/-- `ContractSchedule`: every descriptive field optional, `schedules`
defaulting to the empty list, `milestones` optional. -/
structure ContractSchedule where
  contract_name : Option String
  company_name : Option String
  contractor : Option String
  client : Option String
  contract_date : Option String
  contract_start_date : Option String
  contract_end_date : Option String
  total_duration_days : Option Int
  contract_amount : Option String
  payment_method : Option String
  payment_due_date : Option String
  schedules : List ScheduleItem
  milestones : Option (List String)
deriving Repr, DecidableEq

/-- `TaskItem`: required id/name/phase, optional due date, `priority`
defaulting to `"보통"` and `status` defaulting to `"대기"`, both plain
strings. -/
structure TaskItem where
  task_id : Int
  task_name : String
  phase : String
  due_date : Option String
  priority : String
  status : String
deriving Repr, DecidableEq

/-- The `ContractSchedule` built when every field takes its default. -/
def ContractSchedule.allNull : ContractSchedule :=
  ⟨none, none, none, none, none, none, none, none, none, none, none, [], none⟩

/-- Validation of an `Optional[str]` field. -/
def validateOptStr : Option Json → Except String (Option String)
  | none => .ok none
  | some .null => .ok none
  | some (.str s) => .ok (some s)
  | some _ => .error "string_type"

/-- Validation of a required `str` field. -/
def validateReqStr : Option Json → Except String String
  | some (.str s) => .ok s
  | none => .error "missing"
  | some _ => .error "string_type"

/-- Validation of an `Optional[int]` field (lax: numeric strings coerce). -/
def validateOptInt : Option Json → Except String (Option Int)
  | none => .ok none
  | some .null => .ok none
  | some (.num n) => .ok (some n)
  | some (.str s) =>
    match s.toInt? with
    | some n => .ok (some n)
    | none => .error "int_parsing"
  | some _ => .error "int_type"

/-- Validation of a required `int` field. -/
def validateReqInt : Option Json → Except String Int
  | some (.num n) => .ok n
  | some (.str s) =>
    match s.toInt? with
    | some n => .ok n
    | none => .error "int_parsing"
  | none => .error "missing"
  | some _ => .error "int_type"

/-- Validation of a `str` field with a default: absent takes the default, an
explicit null is rejected (the field is not `Optional`). -/
def validateStrDefault (dflt : String) : Option Json → Except String String
  | none => .ok dflt
  | some (.str s) => .ok s
  | some _ => .error "string_type"

/-- Validation of an `Optional[list[str]]` field. -/
def validateOptStrList : Option Json → Except String (Option (List String))
  | none => .ok none
  | some .null => .ok none
  | some (.arr xs) =>
    (xs.mapM fun j => match j with
      | Json.str s => Except.ok s
      | _ => Except.error "string_type").map some
  | some _ => .error "list_type"

/-- `ScheduleItem(**d)`. -/
def ScheduleItem.validate (j : Json) : Except String ScheduleItem :=
  match j with
  | .obj kvs => do
    let phase ← validateReqStr (kvs.lookup "phase")
    let schedule_type ← validateReqStr (kvs.lookup "schedule_type")
    let start_date ← validateOptStr (kvs.lookup "start_date")
    let end_date ← validateOptStr (kvs.lookup "end_date")
    let description ← validateOptStr (kvs.lookup "description")
    let deliverables ← validateOptStrList (kvs.lookup "deliverables")
    .ok ⟨phase, schedule_type, start_date, end_date, description, deliverables⟩
  | _ => .error "model_type"

/-- `ContractSchedule(**d)`. -/
def ContractSchedule.validate (j : Json) : Except String ContractSchedule :=
  match j with
  | .obj kvs => do
    let contract_name ← validateOptStr (kvs.lookup "contract_name")
    let company_name ← validateOptStr (kvs.lookup "company_name")
    let contractor ← validateOptStr (kvs.lookup "contractor")
    let client ← validateOptStr (kvs.lookup "client")
    let contract_date ← validateOptStr (kvs.lookup "contract_date")
    let contract_start_date ← validateOptStr (kvs.lookup "contract_start_date")
    let contract_end_date ← validateOptStr (kvs.lookup "contract_end_date")
    let total_duration_days ← validateOptInt (kvs.lookup "total_duration_days")
    let contract_amount ← validateOptStr (kvs.lookup "contract_amount")
    let payment_method ← validateOptStr (kvs.lookup "payment_method")
    let payment_due_date ← validateOptStr (kvs.lookup "payment_due_date")
    let schedules ←
      match kvs.lookup "schedules" with
      | none => .ok []
      | some (.arr xs) => xs.mapM ScheduleItem.validate
      | some _ => .error "list_type"
    let milestones ← validateOptStrList (kvs.lookup "milestones")
    .ok ⟨contract_name, company_name, contractor, client, contract_date,
      contract_start_date, contract_end_date, total_duration_days,
      contract_amount, payment_method, payment_due_date, schedules, milestones⟩
  | _ => .error "model_type"

/-- `TaskItem(**t)`. -/
def TaskItem.validate (j : Json) : Except String TaskItem :=
  match j with
  | .obj kvs => do
    let task_id ← validateReqInt (kvs.lookup "task_id")
    let task_name ← validateReqStr (kvs.lookup "task_name")
    let phase ← validateReqStr (kvs.lookup "phase")
    let due_date ← validateOptStr (kvs.lookup "due_date")
    let priority ← validateStrDefault "보통" (kvs.lookup "priority")
    let status ← validateStrDefault "대기" (kvs.lookup "status")
    .ok ⟨task_id, task_name, phase, due_date, priority, status⟩
  | _ => .error "model_type"

/-- `[TaskItem(**t) for t in task_data]` (non-list `task_data` fails). -/
def validateTaskList (j : Json) : Except String (List TaskItem) :=
  match j with
  | .arr xs => xs.mapM TaskItem.validate
  | _ => .error "task_list_not_iterable_of_mappings"

/-- The reconciliation step of `GeminiService.extract_schedule` on the parsed
model response: `result.get("contract_schedule", {})` into `ContractSchedule`,
`result.get("task_list", [])` into the task list,
`result.get("raw_text", "")` passed through; a non-object response fails
(`.get` on a non-dict raises). -/
def reconcileResponse (j : Json) :
    Except String (ContractSchedule × List TaskItem × Json) :=
  match j with
  | .obj kvs => do
    let cs ← ContractSchedule.validate ((kvs.lookup "contract_schedule").getD (.obj []))
    let tl ← validateTaskList ((kvs.lookup "task_list").getD (.arr []))
    .ok (cs, tl, (kvs.lookup "raw_text").getD (.str ""))
  | _ => .error "attribute_error"

/-! ## File service (`file_service.py`) and upload endpoint (`upload.py`) -/

/-- The supported-extension set, `ParserFactory.get_supported_extensions()`. -/
def supportedExtensions : List String :=
  [".pdf", ".docx", ".doc", ".hwp", ".hwpx", ".jpg", ".jpeg", ".png",
   ".tiff", ".tif", ".bmp", ".webp"]

/-- `FileService.MAGIC_BYTES`: the acceptable magic signatures per extension.
`.doc` has no entry (`MAGIC_BYTES.get(".doc")` is `None`). -/
def magicBytes : String → Option (List (List Nat))
  | ".pdf" => some [[0x25, 0x50, 0x44, 0x46]]
  | ".docx" => some [[0x50, 0x4B, 0x03, 0x04]]
  | ".hwp" => some [[0xD0, 0xCF, 0x11, 0xE0], [0x50, 0x4B, 0x03, 0x04]]
  | ".hwpx" => some [[0x50, 0x4B, 0x03, 0x04]]
  | ".jpg" => some [[0xFF, 0xD8, 0xFF]]
  | ".jpeg" => some [[0xFF, 0xD8, 0xFF]]
  | ".png" => some [[0x89, 0x50, 0x4E, 0x47]]
  | ".tiff" => some [[0x49, 0x49, 0x2A, 0x00], [0x4D, 0x4D, 0x00, 0x2A]]
  | ".tif" => some [[0x49, 0x49, 0x2A, 0x00], [0x4D, 0x4D, 0x00, 0x2A]]
  | ".bmp" => some [[0x42, 0x4D]]
  | ".webp" => some [[0x52, 0x49, 0x46, 0x46]]
  | _ => none

/-- `settings.max_file_size_mb * 1024 * 1024` with the default 50 MB. -/
def maxFileSizeBytes : Nat := 50 * 1024 * 1024

/-- The `ValueError`s `save_upload_file` raises. -/
inductive SaveErr where
  | unsupportedFormat
  | formatMismatch
  | fileTooLarge
deriving Repr, DecidableEq

/-- User-facing message of each `save_upload_file` error (abridged: the code
interpolates the extension list / extension / size limit into the Korean
message). -/
def saveErrMsg : SaveErr → String
  | .unsupportedFormat => "지원하지 않는 파일 형식입니다."
  | .formatMismatch => "파일 내용이 형식과 일치하지 않습니다."
  | .fileTooLarge => "파일 크기가 50MB를 초과합니다."

/-- `FileService.save_upload_file` over the (lower-cased) extension and the
upload's byte stream, returning the outcome together with whether a temporary
file is left on disk when the call returns/raises:

* unsupported extension: rejected before the destination file is opened;
* otherwise the destination file is created; the first 8192-byte chunk (when
  the stream is non-empty and the extension has registered signatures) must
  start with one of them, else `ValueError` is raised with the just-created
  file still on disk;
* a stream exceeding the size ceiling is rejected with the partial file
  unlinked;
* on success the saved file remains (for the caller to parse and clean up). -/
def saveUploadFile (ext : String) (data : List Nat) :
    Except SaveErr Unit × Bool :=
  if ext ∉ supportedExtensions then (.error .unsupportedFormat, false)
  else
    match data, magicBytes ext with
    | b :: rest, some sigs =>
      if sigs.any fun m => m.isPrefixOf ((b :: rest).take 8192) then
        if maxFileSizeBytes < (b :: rest).length then (.error .fileTooLarge, false)
        else (.ok (), true)
      else (.error .formatMismatch, true)
    | _, _ =>
      if maxFileSizeBytes < data.length then (.error .fileTooLarge, false)
      else (.ok (), true)

/-- Exceptions of the parse / extraction stages as the endpoint's handlers
distinguish them: `ValueError` (mapped to HTTP 400) versus anything else
(mapped to HTTP 500). -/
inductive PipelineErr where
  | valueError (msg : String)
  | otherError (msg : String)
deriving Repr, DecidableEq

/-- The successful result of `GeminiService.extract_schedule`. -/
structure Extracted where
  cs : ContractSchedule
  tasks : List TaskItem
  rawText : String
deriving Repr, DecidableEq

/-- `ScheduleResponse` of `schemas/schedule.py`. -/
structure ScheduleResponse where
  success : Bool
  message : String
  contract_schedule : Option ContractSchedule
  task_list : Option (List TaskItem)
  raw_text_preview : Option String
  raw_text : Option String
deriving Repr, DecidableEq

/-- Prefix of the endpoint's generic 500 message
`"처리 중 오류가 발생했습니다: ..."`. -/
def genericErrMsg (m : String) : String := "처리 중 오류가 발생했습니다: " ++ m

/-- Detail of the no-extractable-content rejection. -/
def noContentDetail : String := "파일에서 텍스트를 추출할 수 없습니다."

/-- `upload_and_extract_schedule` (`upload.py`), with the parse and extraction
stages given as oracle outcomes.  Returns the HTTP outcome (error carries the
status code) and whether a temporary upload file remains on disk afterwards.

Control-flow notes mirrored from the source:
* when `save_upload_file` raises, `saved_path` is still `None`, so the
  `finally` block does NOT delete whatever file the save created;
* after a successful save every path runs the `finally` cleanup;
* the `HTTPException(400)` raised for a no-content parse result is caught by
  the endpoint's own generic `except Exception` handler and re-raised as a
  500 (only `ValueError` is mapped to 400). -/
def uploadEndpoint (ext : String) (data : List Nat)
    (parseRes : Except PipelineErr ParseResult)
    (extractRes : Except PipelineErr Extracted) :
    Except (Nat × String) ScheduleResponse × Bool :=
  match saveUploadFile ext data with
  | (.error e, tempLeft) => (.error (400, saveErrMsg e), tempLeft)
  | (.ok (), _) =>
    (match parseRes with
     | .error (.valueError m) => .error (400, m)
     | .error (.otherError m) => .error (500, genericErrMsg m)
     | .ok pr =>
       if pr.hasText = false ∧ pr.hasImages = false then
         .error (500, genericErrMsg noContentDetail)
       else
         match extractRes with
         | .error (.valueError m) => .error (400, m)
         | .error (.otherError m) => .error (500, genericErrMsg m)
         | .ok ex =>
           .ok
             { success := true
               message := "일정 추출 완료"
               contract_schedule := some ex.cs
               task_list := some ex.tasks
               raw_text_preview :=
                 if (if pr.hasText then pr.text else ex.rawText) ≠ "" then
                   some ((if pr.hasText then pr.text else ex.rawText).take 500)
                 else none
               raw_text := some (if pr.hasText then pr.text else ex.rawText) },
     false)

/-! ## Concrete inputs used by witnesses and counterexamples -/

/-- A 19 MB PNG buffer (each scale's render of `hugePage`). -/
def hugeBuf : List Nat := List.replicate (19 * 1024 * 1024) 0

/-- A page whose render is 19 MB at every scale: oversized even at the
smallest scale, and alone already over the cumulative ceiling. -/
def hugePage : PdfPage := ⟨"", fun _ => some hugeBuf⟩

/-- A PDF page carrying one hundred letters `a` of extracted text (its
renders never run on the text-only path; `none` models nothing rendered). -/
def denseTextPage : PdfPage := ⟨String.mk (List.replicate 100 'a'), fun _ => none⟩

/-- A file whose content is exactly the four bytes `PK\x03\x04`: it passes the
`_is_hwpx` signature check but `zipfile.ZipFile` raises `BadZipFile` on it
(no end-of-central-directory record). -/
def pkNotZip : HwpFileModel :=
  ⟨[0x50, 0x4B, 0x03, 0x04], .error "BadZipFile", .ok "unused"⟩

/-- A well-formed but sectionless HWPX archive (e.g. only `mimetype` and
settings members). -/
def emptyHwpx : HwpFileModel :=
  ⟨[0x50, 0x4B, 0x03, 0x04], .ok [("mimetype", .ok none)], .error "unused"⟩

/-- A zipfile-openable archive whose `Contents/section0.xml` member holds
bytes that are not valid UTF-8, so `content.decode("utf-8")` raises an
uncaught `UnicodeDecodeError` inside `_parse_hwpx`. -/
def badUtf8Hwpx : HwpFileModel :=
  ⟨[0x50, 0x4B, 0x03, 0x04],
   .ok [("Contents/section0.xml", .error "UnicodeDecodeError")],
   .error "unused"⟩

/-! # Theorems -/

/-! ## Shared helper lemmas -/

theorem dropWhile_length_le (p : α → Bool) (l : List α) :
    (l.dropWhile p).length ≤ l.length := by
  induction l with
  | nil => simp
  | cons c cs ih =>
    by_cases h : p c
    · simp only [List.dropWhile, h, List.length_cons]
      omega
    · simp [List.dropWhile, h]

theorem pyStripList_eq_nil (l : List Char) (h : ∀ c ∈ l, pyIsSpace c) :
    pyStripList l = [] := by
  have h1 : l.dropWhile pyIsSpace = [] := List.dropWhile_eq_nil_iff.2 h
  simp [pyStripList, h1]

theorem pyStrip_eq_empty (s : String) (h : ∀ c ∈ s.data, pyIsSpace c) :
    pyStrip s = "" := by
  show String.mk (pyStripList s.data) = ""
  rw [pyStripList_eq_nil s.data h]

theorem extractTextFromBodytext_append_single (data : List Nat) (b : Nat)
    (h : data.length % 2 = 0) :
    extractTextFromBodytext (data ++ [b]) = extractTextFromBodytext data := by
  match data with
  | [] => rfl
  | [x] => simp at h
  | x :: y :: rest =>
    have h' : rest.length % 2 = 0 := by
      simp only [List.length_cons] at h
      omega
    show extractTextFromBodytext (x :: y :: (rest ++ [b])) = _
    simp only [extractTextFromBodytext]
    rw [extractTextFromBodytext_append_single rest b h']

/-- C8 (confirmed): the legacy-HWP body-text decoder consumes consecutive
little-endian 16-bit code units from the start of the byte stream and, in
input order, emits the character itself for code units in `[0x20, 0xD800)` or
`[0xAC00, 0xD7A3]`, a newline for `0x0D`/`0x0A`, a tab for `0x09`, and nothing
for every other code unit; a trailing odd byte is ignored.  (The decoder is a
total function of the bytes, so it never raises.) -/
theorem c8_bodytext_decoder :
    (∀ b0 b1 rest, extractTextFromBodytext (b0 :: b1 :: rest) =
        emitUnit (b0 + 256 * b1) ++ extractTextFromBodytext rest)
    ∧ (∀ data b, data.length % 2 = 0 →
        extractTextFromBodytext (data ++ [b]) = extractTextFromBodytext data)
    ∧ (∀ c, 0x20 ≤ c → c < 0xD800 → emitUnit c = [Char.ofNat c])
    ∧ (∀ c, 0xAC00 ≤ c → c ≤ 0xD7A3 → emitUnit c = [Char.ofNat c])
    ∧ (emitUnit 0x0D = ['\n'] ∧ emitUnit 0x0A = ['\n'] ∧ emitUnit 0x09 = ['\t'])
    ∧ (∀ c, ¬(0x20 ≤ c ∧ c < 0xD800) → c ≠ 0x0D → c ≠ 0x0A → c ≠ 0x09 →
        emitUnit c = []) := by
  refine ⟨fun b0 b1 rest => rfl, extractTextFromBodytext_append_single,
    fun c h1 h2 => ?_, fun c h1 h2 => ?_, ⟨rfl, rfl, rfl⟩,
    fun c h1 h2 h3 h4 => ?_⟩
  · unfold emitUnit
    rw [if_pos (Or.inl ⟨h1, h2⟩)]
  · unfold emitUnit
    rw [if_pos (Or.inr ⟨h1, h2⟩)]
  · unfold emitUnit
    rw [if_neg, if_neg, if_neg h4]
    · rintro (h | h)
      · exact h2 h
      · exact h3 h
    · rintro (⟨ha, hb⟩ | ⟨ha, hb⟩)
      · exact h1 ⟨ha, hb⟩
      · exact h1 ⟨by omega, by omega⟩

/-- Closed instantiation of `c8_bodytext_decoder` at concrete inputs. -/
theorem c8_bodytext_decoder_witness :
    extractTextFromBodytext ([0x41, 0x00] ++ [0x99]) =
        extractTextFromBodytext [0x41, 0x00]
    ∧ emitUnit 0x41 = [Char.ofNat 0x41]
    ∧ emitUnit 0xAC00 = [Char.ofNat 0xAC00]
    ∧ emitUnit 0xFFFF = [] :=
  ⟨c8_bodytext_decoder.2.1 [0x41, 0x00] 0x99 (by decide),
   c8_bodytext_decoder.2.2.1 0x41 (by decide) (by decide),
   c8_bodytext_decoder.2.2.2.1 0xAC00 (by decide) (by decide),
   c8_bodytext_decoder.2.2.2.2.2 0xFFFF (by decide) (by decide) (by decide)
     (by decide)⟩

theorem renderLoop_budget (ps : List PdfPage) (total : Nat) :
    total + sumBytes (renderLoop ps total) ≤ max maxTotalImageBytes total := by
  induction ps generalizing total with
  | nil =>
    simp [renderLoop, sumBytes]
  | cons p ps ih =>
    simp only [renderLoop]
    cases renderPageOptimized p with
    | none => exact ih total
    | some b =>
      by_cases hb : maxTotalImageBytes < total + b.length
      · simp [hb, sumBytes]
      · simp only [hb, if_false, sumBytes, List.map_cons, List.sum_cons]
        have := ih (total + b.length)
        have hmax : max maxTotalImageBytes (total + b.length) = maxTotalImageBytes :=
          Nat.max_eq_left (by omega)
        rw [hmax] at this
        simp only [sumBytes] at this
        omega

/-- C4 (confirmed): PDF image rendering processes pages in index order up to
the 20-page cap; an over-4MB page is re-rendered at scales 1.5 then 1.0 and,
if still oversized at the smallest scale, returned anyway; the loop stops
entirely (rather than skipping) at the first page whose inclusion would push
the running total over 18 MB, so the returned buffers always sum to at most
18 MB. -/
theorem c4_image_budget (pages : List PdfPage) :
    sumBytes (renderPagesAsImages pages) ≤ maxTotalImageBytes
    ∧ (∀ p b0 b1 b2, p.render 0 = some b0 → maxImageBytesPerPage < b0.length →
        p.render 1 = some b1 → maxImageBytesPerPage < b1.length →
        p.render 2 = some b2 → renderPageOptimized p = some b2)
    ∧ (∀ total p ps b, renderPageOptimized p = some b →
        maxTotalImageBytes < total + b.length → renderLoop (p :: ps) total = [])
    ∧ (∀ extra, maxImagePages ≤ pages.length →
        renderPagesAsImages (pages ++ extra) = renderPagesAsImages pages) := by
  refine ⟨?_, ?_, ?_, ?_⟩
  · have := renderLoop_budget (pages.take maxImagePages) 0
    simpa [renderPagesAsImages] using this
  · intro p b0 b1 b2 h0 hb0 h1 hb1 h2
    simp [renderPageOptimized, h0, h1, h2, Nat.not_le.2 hb0, Nat.not_le.2 hb1]
  · intro total p ps b h hlt
    simp [renderLoop, h, hlt]
  · intro extra h
    unfold renderPagesAsImages
    rw [List.take_append_of_le_length h]

/-- Closed instantiation of `c4_image_budget`: a single page that renders to
19 MB at every scale is returned by the per-page optimizer (best effort) but
the page loop stops with nothing included, and the budget bound holds. -/
theorem c4_image_budget_witness :
    renderLoop [hugePage] 0 = []
    ∧ sumBytes (renderPagesAsImages [hugePage]) ≤ maxTotalImageBytes := by
  have hopt : renderPageOptimized hugePage = some hugeBuf :=
    (c4_image_budget [hugePage]).2.1 hugePage hugeBuf hugeBuf hugeBuf rfl
      (by rw [hugeBuf, List.length_replicate]; decide) rfl
      (by rw [hugeBuf, List.length_replicate]; decide) rfl
  exact ⟨(c4_image_budget [hugePage]).2.2.1 0 hugePage [] hugeBuf hopt
      (by rw [hugeBuf, List.length_replicate]; decide),
    (c4_image_budget [hugePage]).1⟩

theorem collapseRowAux_head {cs : List String} {p : Option String} {h : String}
    (hh : (collapseRowAux p cs).head? = some h) : some h ≠ p := by
  induction cs generalizing p with
  | nil => simp [collapseRowAux] at hh
  | cons c cs ih =>
    by_cases hc : some c = p
    · rw [show collapseRowAux p (c :: cs) = collapseRowAux p cs by
        simp [collapseRowAux, hc]] at hh
      exact ih hh
    · rw [show collapseRowAux p (c :: cs) = c :: collapseRowAux (some c) cs by
        simp [collapseRowAux, hc]] at hh
      simp only [List.head?_cons, Option.some.injEq] at hh
      subst hh
      exact hc

theorem collapseRowAux_chain (cs : List String) (p : Option String) :
    List.Chain' (· ≠ ·) (collapseRowAux p cs) := by
  induction cs generalizing p with
  | nil => simp [collapseRowAux]
  | cons c cs ih =>
    by_cases hc : some c = p
    · rw [show collapseRowAux p (c :: cs) = collapseRowAux p cs by
        simp [collapseRowAux, hc]]
      exact ih p
    · rw [show collapseRowAux p (c :: cs) = c :: collapseRowAux (some c) cs by
        simp [collapseRowAux, hc]]
      rw [List.chain'_cons']
      refine ⟨fun b hb => ?_, ih (some c)⟩
      have hbc : some b ≠ some c :=
        collapseRowAux_head (Option.mem_def.1 hb)
      intro hcb
      exact hbc (by rw [hcb])

theorem collapseRowAux_all_same (cs : List String) (v : String)
    (h : ∀ x ∈ cs, x = v) : collapseRowAux (some v) cs = [] := by
  induction cs with
  | nil => rfl
  | cons c cs ih =>
    have hc : c = v := h c (by simp)
    rw [show collapseRowAux (some v) (c :: cs) = collapseRowAux (some v) cs by
      simp [collapseRowAux, hc]]
    exact ih fun x hx => h x (by simp [hx])

theorem collapseRow_all_empty_join (row : List String)
    (h : ∀ x ∈ row, x = "") : joinWith " | " (collapseRow row) = "" := by
  cases row with
  | nil => rfl
  | cons c cs =>
    have hc : c = "" := h c (by simp)
    have hcs : collapseRowAux (some c) cs = [] := by
      rw [hc]
      exact collapseRowAux_all_same cs "" fun x hx => h x (by simp [hx])
    rw [show collapseRow (c :: cs) = c :: collapseRowAux (some c) cs by
      simp [collapseRow, collapseRowAux]]
    rw [hcs, hc]
    rfl

theorem joinWith_newline_chars (lines : List String)
    (h : ∀ s ∈ lines, s = "") :
    ∀ c ∈ (joinWith "\n" lines).data, c = '\n' := by
  induction lines with
  | nil => intro c hc; simp [joinWith] at hc
  | cons x xs ih =>
    cases xs with
    | nil =>
      intro c hc
      rw [show joinWith "\n" [x] = x from rfl, h x (by simp)] at hc
      simp at hc
    | cons y ys =>
      intro c hc
      rw [show joinWith "\n" (x :: y :: ys) = x ++ "\n" ++ joinWith "\n" (y :: ys)
        from rfl] at hc
      rw [h x (by simp)] at hc
      simp only [String.data_append] at hc
      rcases List.mem_append.1 hc with hl | hr
      · rcases List.mem_append.1 hl with hl2 | hl3
        · simp [show ("" : String).data = [] from rfl] at hl2
        · simpa using hl3
      · exact ih (fun s hs => h s (by simp [hs])) c hr

theorem pyStrip_extractTable_all_empty (t : List (List String))
    (h : ∀ row ∈ t, ∀ c ∈ row, pyStrip c = "") :
    pyStrip (extractTable t) = "" := by
  have hlines : ∀ s ∈ (t.map fun row =>
      joinWith " | " (collapseRow (row.map pyStrip))), s = "" := by
    intro s hs
    rcases List.mem_map.1 hs with ⟨row, hrow, rfl⟩
    refine collapseRow_all_empty_join _ ?_
    intro x hx
    rcases List.mem_map.1 hx with ⟨c, hc, rfl⟩
    exact h row hrow c hc
  refine pyStrip_eq_empty _ ?_
  intro c hc
  have := joinWith_newline_chars _ hlines c hc
  rw [this]
  rfl

/-- C7 (confirmed): DOCX table rows collapse runs of identical consecutive
(stripped) cell texts to a single occurrence before joining with `" | "`
(`["A", "A", "B"]` renders as `"A | B"`), non-consecutive repeats are kept
(`["A", "B", "A"]` renders in full), and a table all of whose cells strip to
empty contributes nothing to the parsed text. -/
theorem c7_docx_table_dedup :
    (∀ cells, List.Chain' (· ≠ ·) (collapseRow cells))
    ∧ joinWith " | " (collapseRow ["A", "A", "B"]) = "A | B"
    ∧ joinWith " | " (collapseRow ["A", "B", "A"]) = "A | B | A"
    ∧ (∀ paragraphs ts1 ts2 t, (∀ row ∈ t, ∀ c ∈ row, pyStrip c = "") →
        docxParse paragraphs (ts1 ++ t :: ts2) = docxParse paragraphs (ts1 ++ ts2)) := by
  refine ⟨fun cells => collapseRowAux_chain cells none, by rfl, by rfl, ?_⟩
  intro paragraphs ts1 ts2 t h
  have hempty : pyStrip (extractTable t) = "" := pyStrip_extractTable_all_empty t h
  unfold docxParse
  rw [List.filterMap_append, List.filterMap_append, List.filterMap_cons]
  simp [hempty]

/-- Closed instantiation of `c7_docx_table_dedup`: an all-empty two-row table
contributes nothing next to a paragraph. -/
theorem c7_docx_table_dedup_witness :
    docxParse ["hello"] ([] ++ [["", " "], [""]] :: []) = docxParse ["hello"] ([] ++ []) :=
  c7_docx_table_dedup.2.2.2 ["hello"] [] [] [["", " "], [""]] (by decide)

/-- C2 counterexample: `.doc` is in the supported extension set, has no
registered magic signature (`MAGIC_BYTES.get(".doc")` is `None`), and a `.doc`
upload whose leading bytes `[0, 1, 2, 3]` match no documented signature of any
extension is saved successfully instead of being rejected with a
format-mismatch error — refuting the claim that every supported extension gets
a magic-byte check. -/
theorem c2_magic_bytes_counterexample :
    ".doc" ∈ supportedExtensions ∧ magicBytes ".doc" = none ∧
      saveUploadFile ".doc" [0, 1, 2, 3] = (.ok (), true) :=
  ⟨by decide, rfl, rfl⟩

/-- C2 (corrected): for every supported extension that has registered magic
signatures (all but `.doc`) and every non-empty stream, the save accepts
exactly when the first chunk starts with one of the signatures (subject to the
separate size ceiling) and raises a format-mismatch `ValueError` otherwise;
`.doc` uploads are saved without any byte inspection; an unsupported extension
is rejected before any bytes are inspected. -/
theorem c2_magic_bytes_amended :
    (∀ ext, ext ∉ supportedExtensions →
      ∀ data, saveUploadFile ext data = (.error .unsupportedFormat, false))
    ∧ (∀ ext sigs b rest, ext ∈ supportedExtensions → magicBytes ext = some sigs →
        (sigs.any fun m => m.isPrefixOf ((b :: rest).take 8192)) = false →
        saveUploadFile ext (b :: rest) = (.error .formatMismatch, true))
    ∧ (∀ ext sigs b rest, ext ∈ supportedExtensions → magicBytes ext = some sigs →
        (sigs.any fun m => m.isPrefixOf ((b :: rest).take 8192)) = true →
        (b :: rest).length ≤ maxFileSizeBytes →
        saveUploadFile ext (b :: rest) = (.ok (), true))
    ∧ (∀ data, data.length ≤ maxFileSizeBytes →
        saveUploadFile ".doc" data = (.ok (), true)) := by
  refine ⟨?_, ?_, ?_, ?_⟩
  · intro ext h data
    simp [saveUploadFile, h]
  · intro ext sigs b rest hmem hmagic hany
    unfold saveUploadFile
    rw [if_neg (by simp [hmem]), hmagic]
    show (if (sigs.any fun m => m.isPrefixOf ((b :: rest).take 8192)) then
        if maxFileSizeBytes < (b :: rest).length then
          (Except.error SaveErr.fileTooLarge, false)
        else (Except.ok (), true)
      else (Except.error SaveErr.formatMismatch, true)) =
      (Except.error SaveErr.formatMismatch, true)
    rw [hany]
    rfl
  · intro ext sigs b rest hmem hmagic hany hsize
    unfold saveUploadFile
    rw [if_neg (by simp [hmem]), hmagic]
    show (if (sigs.any fun m => m.isPrefixOf ((b :: rest).take 8192)) then
        if maxFileSizeBytes < (b :: rest).length then
          (Except.error SaveErr.fileTooLarge, false)
        else (Except.ok (), true)
      else (Except.error SaveErr.formatMismatch, true)) = (Except.ok (), true)
    rw [hany, if_pos rfl, if_neg (Nat.not_lt.2 hsize)]
  · intro data hsize
    unfold saveUploadFile
    rw [if_neg (by simp [supportedExtensions])]
    cases data with
    | nil =>
      show (if maxFileSizeBytes < ([] : List Nat).length then
          (Except.error SaveErr.fileTooLarge, false)
        else (Except.ok (), true)) = (Except.ok (), true)
      rw [if_neg (Nat.not_lt.2 hsize)]
    | cons b rest =>
      show (if maxFileSizeBytes < (b :: rest).length then
          (Except.error SaveErr.fileTooLarge, false)
        else (Except.ok (), true)) = (Except.ok (), true)
      rw [if_neg (Nat.not_lt.2 hsize)]

/-- Closed instantiation of `c2_magic_bytes_amended` at concrete uploads. -/
theorem c2_magic_bytes_amended_witness :
    saveUploadFile ".txt" [1, 2] = (.error .unsupportedFormat, false)
    ∧ saveUploadFile ".pdf" [0x41] = (.error .formatMismatch, true)
    ∧ saveUploadFile ".png" [0x89, 0x50, 0x4E, 0x47, 0x00] = (.ok (), true) :=
  ⟨c2_magic_bytes_amended.1 ".txt" (by decide) [1, 2],
   c2_magic_bytes_amended.2.1 ".pdf" [[0x25, 0x50, 0x44, 0x46]] 0x41 []
     (by decide) rfl (by decide),
   c2_magic_bytes_amended.2.2.1 ".png" [[0x89, 0x50, 0x4E, 0x47]] 0x89
     [0x50, 0x4E, 0x47, 0x00] (by decide) rfl (by decide) (by decide)⟩

/-- C5 counterexample: a zero-page PDF.  `parse` returns
`ParseResult(text="", images=[])` — `images` is empty — even though the
cleaned text length (0) is below the 100-character threshold and the document
counts as likely-scanned, refuting the claimed "images empty iff text
sufficient and not likely-scanned" equivalence: the scan path renders zero
images when there are no pages to render. -/
theorem c5_scan_decision_counterexample :
    pdfParse [] = ParseResult.mk "" []
    ∧ (pdfParse []).images = []
    ∧ ¬(textThreshold ≤ (pdfCleanText []).length ∧
        isLikelyScanned (pdfCleanText []) (0 : Nat) (pdfEmptyPageCount []) = false) := by
  refine ⟨rfl, rfl, ?_⟩
  rintro ⟨h, -⟩
  revert h
  decide

/-- C5 (corrected): the parser takes the text-only branch (returning the
concatenated page text with no image rendering at all) exactly when the
cleaned text has at least 100 characters and `_is_likely_scanned` is false,
where likely-scanned holds exactly when the page count is 0, or at least one
page yielded no text, or the average characters per page is below 50, or the
alphanumeric/Hangul fraction of the cleaned text is below 0.3; otherwise it
proceeds to image rendering (in particular any PDF with a structurally empty
page does).  The result's `images` can nevertheless be empty on the rendering
path when zero images get rendered (e.g. a zero-page document), so "images
empty" is not equivalent to the text-sufficiency condition. -/
theorem c5_scan_decision_amended (pages : List PdfPage) :
    (isLikelyScanned (pdfCleanText pages) pages.length (pdfEmptyPageCount pages) = true ↔
      (pages.length = 0 ∨ 0 < pdfEmptyPageCount pages ∨
        (pdfCleanText pages).length < textQualityThreshold * pages.length ∨
        (0 < (pdfCleanText pages).length ∧
          10 * meaningfulCount (pdfCleanText pages) < 3 * (pdfCleanText pages).length)))
    ∧ (textThreshold ≤ (pdfCleanText pages).length ∧
        isLikelyScanned (pdfCleanText pages) pages.length (pdfEmptyPageCount pages) = false →
        pdfParse pages = ParseResult.mk (pdfTotalText pages) [])
    ∧ (¬(textThreshold ≤ (pdfCleanText pages).length ∧
        isLikelyScanned (pdfCleanText pages) pages.length (pdfEmptyPageCount pages) = false) →
        pdfParse pages =
          ParseResult.mk (if pdfMarkedTexts pages = [] then "" else pdfTotalText pages)
            (renderPagesAsImages pages))
    ∧ (0 < pdfEmptyPageCount pages →
        (pdfParse pages).images = renderPagesAsImages pages) := by
  refine ⟨?_, ?_, ?_, ?_⟩
  · unfold isLikelyScanned
    split_ifs with h1 h2 h3 h4
    · simp [h1]
    · simp [h2]
    · simp [h3]
    · simp [h4, h1, h2, h3]
    · simp only [Bool.false_eq_true, false_iff]
      push_neg
      refine ⟨h1, by omega, by omega, ?_⟩
      intro hpos
      rcases Decidable.not_and_iff_or_not.1 h4 with hna | hnb
      · exact absurd hpos hna
      · omega
  · intro h
    unfold pdfParse
    rw [if_pos h]
  · intro h
    unfold pdfParse
    rw [if_neg h]
  · intro h
    have hscan : isLikelyScanned (pdfCleanText pages) pages.length
        (pdfEmptyPageCount pages) = true := by
      unfold isLikelyScanned
      by_cases h1 : pages.length = 0
      · rw [if_pos h1]
      · rw [if_neg h1, if_pos h]
    have hneg : ¬(textThreshold ≤ (pdfCleanText pages).length ∧
        isLikelyScanned (pdfCleanText pages) pages.length (pdfEmptyPageCount pages) = false) := by
      rintro ⟨-, hfalse⟩
      rw [hscan] at hfalse
      exact absurd hfalse (by simp)
    unfold pdfParse
    rw [if_neg hneg]

/-- Closed instantiation of `c5_scan_decision_amended`: a one-page PDF with
one hundred letters of text takes the text-only branch. -/
theorem c5_scan_decision_amended_witness :
    pdfParse [denseTextPage] = ParseResult.mk (pdfTotalText [denseTextPage]) [] :=
  (c5_scan_decision_amended [denseTextPage]).2.1 (by decide)

/-- C3 counterexample: a DOCX whose only paragraph strips to empty (and which
has no tables) makes `DocxParser.parse` return `ParseResult(text="", images=[])`
normally — the parser does not raise on the empty/empty state, refuting the
claimed parser-level invariant.  (A zero-page PDF behaves the same way:
`pdfParse [] = ParseResult.mk "" []`.) -/
theorem c3_empty_result_counterexample :
    docxParse [""] [] = ParseResult.mk "" []
    ∧ (docxParse [""] []).hasText = false
    ∧ (docxParse [""] []).hasImages = false :=
  ⟨rfl, rfl, rfl⟩

/-- C3 (corrected): parsers can return a `ParseResult` with both `text`
(after stripping) and `images` empty; the empty/empty invariant is instead
enforced by the upload endpoint, which fails the request before any extraction
call when the parse result has neither text nor images (the endpoint's own
`HTTPException(400)` is swallowed by its generic `except Exception` handler
and surfaces as a 500).  The temporary file is cleaned up on this path. -/
theorem c3_no_content_amended (ext : String) (data : List Nat) (pr : ParseResult)
    (ex : Except PipelineErr Extracted)
    (hsave : (saveUploadFile ext data).1 = Except.ok ())
    (ht : pr.hasText = false) (hi : pr.hasImages = false) :
    uploadEndpoint ext data (.ok pr) ex =
      (.error (500, genericErrMsg noContentDetail), false) := by
  unfold uploadEndpoint
  rcases h : saveUploadFile ext data with ⟨res, tmp⟩
  rw [h] at hsave
  simp only at hsave
  subst hsave
  dsimp only
  rw [if_pos ⟨ht, hi⟩]

/-- Closed instantiation of `c3_no_content_amended`: an empty-text, no-image
parse of a well-formed `%PDF` upload is rejected without consulting the
extraction oracle. -/
theorem c3_no_content_amended_witness :
    uploadEndpoint ".pdf" [0x25, 0x50, 0x44, 0x46] (.ok (ParseResult.mk "" []))
        (.error (.otherError "unreached")) =
      (.error (500, genericErrMsg noContentDetail), false) :=
  c3_no_content_amended ".pdf" [0x25, 0x50, 0x44, 0x46] (ParseResult.mk "" [])
    (.error (.otherError "unreached")) rfl rfl rfl

/-- C6 (code bug): a `.pdf` upload whose first chunk does not start with
`%PDF` makes `save_upload_file` raise the format-mismatch `ValueError` after
the destination file has already been created (the magic check runs inside
the `async with aiofiles.open(...)` block); because the exception propagates
before `saved_path` is assigned, the endpoint's `finally` cleanup is skipped
and the empty temporary file remains on disk while the 400 response is
returned — contradicting "temporary file cleanup always runs regardless of
which error path was taken".  The size-ceiling path, by contrast, unlinks the
partial file itself, showing the cleanup intent. -/
theorem c6_temp_leak_eval :
    uploadEndpoint ".pdf" [0x41, 0x42] (.error (.otherError "unreached"))
        (.error (.otherError "unreached")) =
      (.error (400, saveErrMsg .formatMismatch), true)
    ∧ uploadEndpoint ".xyz" [0x41, 0x42] (.error (.otherError "unreached"))
        (.error (.otherError "unreached")) =
      (.error (400, saveErrMsg .unsupportedFormat), false)
    ∧ uploadEndpoint ".pdf" [0x25, 0x50, 0x44, 0x46]
        (.error (.valueError "corrupt")) (.error (.otherError "unreached")) =
      (.error (400, "corrupt"), false) :=
  ⟨rfl, rfl, rfl⟩

theorem mem_insertBy {le : α → α → Bool} {x a : α} {l : List α} :
    x ∈ insertBy le a l ↔ x = a ∨ x ∈ l := by
  induction l with
  | nil => simp [insertBy]
  | cons y ys ih =>
    by_cases h : le y a
    · rw [show insertBy le a (y :: ys) = y :: insertBy le a ys by
        simp [insertBy, h]]
      simp only [List.mem_cons, ih]
      tauto
    · rw [show insertBy le a (y :: ys) = a :: y :: ys by
        simp [insertBy, h]]
      simp only [List.mem_cons]

theorem mem_sortBy {le : α → α → Bool} {x : α} {l : List α} :
    x ∈ sortBy le l ↔ x ∈ l := by
  suffices h : ∀ (l acc : List α), x ∈ l.foldl (fun acc y => insertBy le y acc) acc ↔
      x ∈ acc ∨ x ∈ l by
    have := h l []
    simpa [sortBy] using this
  intro l
  induction l with
  | nil => simp
  | cons y ys ih =>
    intro acc
    simp only [List.foldl_cons, ih, mem_insertBy, List.mem_cons]
    tauto

/-- C1 counterexample: a model response that parses as JSON but has no
top-level `contract_schedule` key (here `{"task_list": [], "raw_text": ""}`)
does NOT fail the extraction: `result.get("contract_schedule", {})` substitutes
the empty object, and `ContractSchedule(**{})` succeeds with every field at
its null/empty default. -/
theorem c1_missing_key_counterexample :
    List.lookup "contract_schedule"
        [("task_list", Json.arr []), ("raw_text", Json.str "")] = none
    ∧ reconcileResponse
        (Json.obj [("task_list", Json.arr []), ("raw_text", Json.str "")]) =
      .ok (ContractSchedule.allNull, [], Json.str "") :=
  ⟨rfl, rfl⟩

/-- C1 (corrected): a model response missing the top-level `contract_schedule`
key yields an all-null `ContractSchedule` (no error): whenever reconciliation
succeeds on such a response, the returned schedule is the all-default one.
Per-field nulls for the optional fields inside a present `contract_schedule`
are accepted and map to null, but a null for the non-optional `schedules` list
fails validation. -/
theorem c1_missing_key_amended :
    (∀ kvs, List.lookup "contract_schedule" kvs = none →
      ∀ cs tl rt, reconcileResponse (Json.obj kvs) = .ok (cs, tl, rt) →
        cs = ContractSchedule.allNull)
    ∧ ContractSchedule.validate (Json.obj
        [("contract_name", Json.null), ("company_name", Json.null),
         ("contractor", Json.null), ("client", Json.null),
         ("contract_date", Json.null), ("contract_start_date", Json.null),
         ("contract_end_date", Json.null), ("total_duration_days", Json.null),
         ("contract_amount", Json.null), ("payment_method", Json.null),
         ("payment_due_date", Json.null), ("milestones", Json.null)]) =
      .ok ContractSchedule.allNull
    ∧ ContractSchedule.validate (Json.obj [("schedules", Json.null)]) =
      .error "list_type" := by
  refine ⟨?_, rfl, rfl⟩
  intro kvs h cs tl rt heq
  unfold reconcileResponse at heq
  dsimp only at heq
  rw [h] at heq
  simp only [Option.getD_none] at heq
  have hv : ContractSchedule.validate (Json.obj []) = .ok ContractSchedule.allNull := rfl
  rw [hv] at heq
  cases hvt : validateTaskList ((kvs.lookup "task_list").getD (Json.arr [])) with
  | error e =>
    rw [hvt] at heq
    simp only [Bind.bind, Except.bind] at heq
    exact absurd heq (by simp)
  | ok tl2 =>
    rw [hvt] at heq
    simp only [Bind.bind, Except.bind] at heq
    cases heq
    rfl

/-- Closed instantiation of `c1_missing_key_amended` at the empty response
object. -/
theorem c1_missing_key_amended_witness :
    ContractSchedule.allNull = ContractSchedule.allNull :=
  c1_missing_key_amended.1 [] rfl ContractSchedule.allNull [] (Json.str "") rfl

/-- C9 counterexample: `schedule_type`, `priority` and `status` are declared
as plain `str` fields, so a `ScheduleItem` with a `schedule_type` outside the
eleven enumerated categories — and a `TaskItem` with arbitrary
`priority`/`status` strings — validate successfully instead of failing. -/
theorem c9_enum_counterexample :
    ScheduleItem.validate (Json.obj [("phase", Json.str "1단계"),
        ("schedule_type", Json.str "not-a-category")]) =
      .ok ⟨"1단계", "not-a-category", none, none, none, none⟩
    ∧ "not-a-category" ∉
        (([.start, .completion, .design, .development, .test, .delivery,
           .interimReport, .finalReport, .inspection, .handover, .other] :
          List ScheduleType).map ScheduleType.val)
    ∧ TaskItem.validate (Json.obj [("task_id", Json.num 1),
        ("task_name", Json.str "업무"), ("phase", Json.str "p"),
        ("priority", Json.str "whatever"), ("status", Json.str "nope")]) =
      .ok ⟨1, "업무", "p", none, "whatever", "nope"⟩ :=
  ⟨rfl, by decide, rfl⟩

/-- C9 (corrected): the `ScheduleType` enum with the eleven categories is
declared but not referenced by any field type: `ScheduleItem.schedule_type`
accepts every string, and `TaskItem.priority`/`TaskItem.status` accept every
string with defaults `"보통"` (normal) and `"대기"` (pending); no enumeration
check is enforced at construction. -/
theorem c9_enum_amended :
    (∀ s phase, ScheduleItem.validate (Json.obj
        [("phase", Json.str phase), ("schedule_type", Json.str s)]) =
      .ok ⟨phase, s, none, none, none, none⟩)
    ∧ (∀ p st, TaskItem.validate (Json.obj [("task_id", Json.num 1),
        ("task_name", Json.str "n"), ("phase", Json.str "ph"),
        ("priority", Json.str p), ("status", Json.str st)]) =
      .ok ⟨1, "n", "ph", none, p, st⟩)
    ∧ TaskItem.validate (Json.obj [("task_id", Json.num 1),
        ("task_name", Json.str "n"), ("phase", Json.str "ph")]) =
      .ok ⟨1, "n", "ph", none, "보통", "대기"⟩
    ∧ (∀ t : ScheduleType, t.val ∈ ["착수", "완료", "설계", "개발", "테스트",
        "납품", "중간보고", "최종보고", "검수", "인도", "기타"]) := by
  refine ⟨fun s phase => rfl, fun p st => rfl, rfl, ?_⟩
  intro t
  cases t <;> decide

theorem hwpxSectionsGo_ok (l : List (String × Except String (Option Xml)))
    (h : ∀ e ∈ l, isSectionName e.1 = true → ∃ x, e.2 = .ok x) :
    ∃ ts, hwpxSectionsGo l = .ok ts := by
  induction l with
  | nil => exact ⟨[], rfl⟩
  | cons e rest ih =>
    obtain ⟨ts, hts⟩ := ih fun e' he' hs => h e' (by simp [he']) hs
    by_cases hs : isSectionName e.1 = true
    · obtain ⟨x, hx⟩ := h e (by simp) hs
      refine ⟨if pyStrip (extractTextFromXml x) = "" then ts
        else extractTextFromXml x :: ts, ?_⟩
      simp [hwpxSectionsGo, hs, hx, hts]
    · exact ⟨ts, by simp [hwpxSectionsGo, hs, hts]⟩

/-- C10 counterexample: two `PK\x03\x04`-prefixed files on which
`HWPParser.parse` raises instead of returning normally: the four bytes
`PK\x03\x04` alone (`zipfile.ZipFile` raises `BadZipFile` — no
end-of-central-directory record), and a zipfile-openable archive whose
`Contents/section0.xml` bytes are not valid UTF-8 (`decode("utf-8")` raises
an uncaught `UnicodeDecodeError` inside `_parse_hwpx`). -/
theorem c10_hwpx_counterexample :
    pkNotZip.firstBytes.take 4 = zipMagic
    ∧ hwpParse pkNotZip = .error "BadZipFile"
    ∧ badUtf8Hwpx.firstBytes.take 4 = zipMagic
    ∧ hwpParse badUtf8Hwpx = .error "UnicodeDecodeError" :=
  ⟨rfl, rfl, rfl, rfl⟩

/-- C10 (corrected): for every `PK\x03\x04`-prefixed file that `zipfile` can
open and all of whose `Contents/section*.xml` members read and decode
successfully, the HWPX branch returns normally with a (possibly empty) text
and no images — never the corrupt-document `ValueError`; an archive with no
section members yields empty text; a section that decodes but fails XML
parsing contributes nothing.  But a `PK\x03\x04`-prefixed file that is not a
valid zip archive, or whose section-member read/decode raises (bad CRC,
invalid UTF-8), makes `parse` propagate the unwrapped library error. -/
theorem c10_hwpx_amended :
    (∀ f entries, f.firstBytes.take 4 = zipMagic → f.zip = .ok entries →
      (∀ e ∈ entries, isSectionName e.1 = true → ∃ x, e.2 = .ok x) →
      ∃ t, hwpParse f = .ok (ParseResult.mk t []))
    ∧ (∀ entries, (∀ e ∈ entries, isSectionName e.1 = false) →
        hwpxText entries = .ok "")
    ∧ (∀ name rest, isSectionName name = true →
        hwpxSectionsGo ((name, .ok none) :: rest) = hwpxSectionsGo rest)
    ∧ (∀ name err rest, isSectionName name = true →
        hwpxSectionsGo ((name, .error err) :: rest) = .error err)
    ∧ (∀ f e, f.firstBytes.take 4 = zipMagic → f.zip = .error e →
        hwpParse f = .error e) := by
  refine ⟨?_, ?_, ?_, ?_, ?_⟩
  · intro f entries hmagic hzip hall
    obtain ⟨ts, hts⟩ := hwpxSectionsGo_ok
      (sortBy (fun a b => decide (a.1 ≤ b.1)) entries)
      (fun e he hs => hall e (mem_sortBy.1 he) hs)
    refine ⟨joinWith "\n\n" ts, ?_⟩
    have htext : hwpxText entries = .ok (joinWith "\n\n" ts) := by
      unfold hwpxText
      rw [hts]
    unfold hwpParse
    rw [if_pos hmagic, hzip]
    dsimp only
    rw [htext]
  · intro entries h
    have hgo : ∀ (l : List (String × Except String (Option Xml))),
        (∀ e ∈ l, isSectionName e.1 = false) → hwpxSectionsGo l = .ok [] := by
      intro l
      induction l with
      | nil => intro _; rfl
      | cons e rest ih =>
        intro hl
        have hs : isSectionName e.1 = false := hl e (by simp)
        rw [show hwpxSectionsGo (e :: rest) = hwpxSectionsGo rest by
          simp [hwpxSectionsGo, hs]]
        exact ih fun e' he' => hl e' (by simp [he'])
    unfold hwpxText
    rw [hgo _ fun e he => h e (mem_sortBy.1 he)]
    rfl
  · intro name rest hsec
    have hempty : pyStrip (extractTextFromXml none) = "" := rfl
    cases hrest : hwpxSectionsGo rest with
    | error err => simp [hwpxSectionsGo, hsec, hrest]
    | ok ts => simp [hwpxSectionsGo, hsec, hrest, hempty]
  · intro name err rest hsec
    simp [hwpxSectionsGo, hsec]
  · intro f e hmagic hzip
    unfold hwpParse
    rw [if_pos hmagic, hzip]

/-- Closed instantiation of `c10_hwpx_amended`: a sectionless archive parses
to empty text with no images, a decode-failing section aborts the member
loop, and the four-byte pseudo-zip raises. -/
theorem c10_hwpx_amended_witness :
    (∃ t, hwpParse emptyHwpx = .ok (ParseResult.mk t []))
    ∧ hwpxText [("mimetype", .ok none)] = .ok ""
    ∧ hwpxSectionsGo [("Contents/section0.xml", .error "boom")] = .error "boom"
    ∧ hwpParse pkNotZip = .error "BadZipFile" :=
  ⟨c10_hwpx_amended.1 emptyHwpx [("mimetype", Except.ok none)] rfl rfl
     (by
       intro e he hs
       simp only [List.mem_singleton] at he
       subst he
       exact absurd hs (by decide)),
   c10_hwpx_amended.2.1 [("mimetype", Except.ok none)] (by decide),
   c10_hwpx_amended.2.2.2.1 "Contents/section0.xml" "boom" [] (by decide),
   c10_hwpx_amended.2.2.2.2 pkNotZip "BadZipFile" rfl rfl⟩
